import Mathlib

/-!
Formal model of the public-dashboard query-construction and template-variable
resolution engine (`pkg/services/publicdashboards/service/query.go` and
`query_variables.go`), embedded shallowly in Lean.  Dashboard documents are
modelled as a JSON tree with the access semantics of `simplejson` (defaulting
getters, no-op setters on non-objects); Go slices are modelled with an
explicit nil state, and Go maps as association lists in iteration order.
-/

set_option maxRecDepth 40000

/-- Json mirrors the dynamic JSON tree handled by `simplejson.Json`:
null, booleans, numbers (restricted to integers; no claim depends on
fractional values), strings, arrays and objects.  Objects keep their fields
as an association list in a fixed order. -/
inductive Json where
  | null
  | bool (b : Bool)
  | num (n : Int)
  | str (s : String)
  | arr (elems : List Json)
  | obj (fields : List (String × Json))

/-- AListGet looks a key up in an association list, returning the first
binding, like a Go map read. -/
def AListGet {κ ν : Type} [BEq κ] : List (κ × ν) → κ → Option ν
  | [], _ => none
  | (k, v) :: rest, key => if k == key then some v else AListGet rest key

/-- AListSet writes a key in an association list, replacing the first
binding or appending a fresh one, like a Go map write. -/
def AListSet {κ ν : Type} [BEq κ] : List (κ × ν) → κ → ν → List (κ × ν)
  | [], key, v => [(key, v)]
  | (k, w) :: rest, key, v =>
    if k == key then (k, v) :: rest else (k, w) :: AListSet rest key v

/-- Json.get models `simplejson.Json.Get`: a field read on an object, and a
null wrapper on every other shape. -/
def Json.get : Json → String → Json
  | .obj fs, key => (AListGet fs key).getD .null
  | _, _ => .null

/-- Json.getPath models `simplejson.Json.GetPath`, a chain of `Get`s. -/
def Json.getPath (j : Json) (keys : List String) : Json :=
  keys.foldl Json.get j

/-- Json.checkGet models `simplejson.Json.CheckGet`: the field and a
success flag. -/
def Json.checkGet : Json → String → Option Json
  | .obj fs, key => AListGet fs key
  | _, _ => none

/-- Json.hasKey is true when the value is an object carrying the key. -/
def Json.hasKey (j : Json) (key : String) : Bool :=
  (j.checkGet key).isSome

/-- Json.set models `simplejson.Json.Set`: a field write on an object and a
no-op on every other shape. -/
def Json.set : Json → String → Json → Json
  | .obj fs, key, v => .obj (AListSet fs key v)
  | j, _, _ => j

/-- Json.del models `simplejson.Json.Del`: removing a field of an object and
a no-op on every other shape. -/
def Json.del : Json → String → Json
  | .obj fs, key => .obj (fs.filter (fun kv => kv.1 != key))
  | j, _ => j

/-- Json.isNull captures the `Interface() != nil` checks of the source: the
wrapped dynamic value is nil exactly on JSON null / missing fields. -/
def Json.isNull : Json → Bool
  | .null => true
  | _ => false

/-- Json.mustString models `MustString` with its zero-value default. -/
def Json.mustString : Json → String
  | .str s => s
  | _ => ""

/-- Json.mustBool models `MustBool` with its zero-value default. -/
def Json.mustBool : Json → Bool
  | .bool b => b
  | _ => false

/-- Json.mustInt64 models `MustInt64` with its zero-value default. -/
def Json.mustInt64 : Json → Int
  | .num n => n
  | _ => 0

/-- Json.mustArray models `MustArray` with its zero-value default. -/
def Json.mustArray : Json → List Json
  | .arr xs => xs
  | _ => []

/-- Json.mustMap models `MustMap` with its zero-value default. -/
def Json.mustMap : Json → List (String × Json)
  | .obj fs => fs
  | _ => []

mutual
/-- Json.size is an executable structural size of a document, used to
supply recursion fuel bounds. -/
def Json.size : Json → Nat
  | .null => 1
  | .bool _ => 1
  | .num _ => 1
  | .str _ => 1
  | .arr xs => 1 + Json.sizeList xs
  | .obj fs => 1 + Json.sizeFields fs
/-- Json.sizeList is the total size of a list of documents. -/
def Json.sizeList : List Json → Nat
  | [] => 0
  | x :: xs => Json.size x + Json.sizeList xs
/-- Json.sizeFields is the total size of an object field list. -/
def Json.sizeFields : List (String × Json) → Nat
  | [] => 0
  | kv :: fs => Json.size kv.2 + Json.sizeFields fs
end

theorem Json.size_pos (j : Json) : 0 < j.size := by
  cases j <;> simp [Json.size]

theorem AListGet_size {fs : List (String × Json)} {k : String} {v : Json}
    (h : AListGet fs k = some v) : v.size ≤ Json.sizeFields fs := by
  induction fs with
  | nil => simp [AListGet] at h
  | cons kv rest ih =>
    by_cases hk : (kv.1 == k) = true
    · rw [show kv = (kv.1, kv.2) from rfl, AListGet] at h
      simp [hk] at h
      subst h
      simp [Json.sizeFields]
    · rw [show kv = (kv.1, kv.2) from rfl, AListGet] at h
      simp [hk] at h
      have := ih h
      simp [Json.sizeFields]
      omega

theorem Json.size_get_le (j : Json) (k : String) : (j.get k).size ≤ j.size := by
  cases j with
  | obj fs =>
    simp only [Json.get]
    cases h : AListGet fs k with
    | none => simp [Option.getD, Json.size]
    | some v =>
      have := AListGet_size h
      simp only [Option.getD, Json.size]
      omega
  | null => simp [Json.get]
  | bool b => simp [Json.get, Json.size]
  | num n => simp [Json.get, Json.size]
  | str s => simp [Json.get, Json.size]
  | arr xs => simp [Json.get, Json.size]

theorem Json.sizeList_mustArray_lt (j : Json) : Json.sizeList j.mustArray < j.size := by
  cases j <;> simp [Json.mustArray, Json.size, Json.sizeList]

theorem Json.sizeList_get_mustArray_lt (p : Json) (k : String) :
    Json.sizeList ((p.get k).mustArray) < p.size :=
  lt_of_lt_of_le (Json.sizeList_mustArray_lt (p.get k)) (Json.size_get_le p k)

/-- GoSlice models a Go slice, distinguishing the nil slice from a non-nil
one (nil and empty slices compare equal elementwise but marshal differently:
nil marshals to JSON null). -/
abbrev GoSlice (α : Type) := Option (List α)

/-- GoSlice.toList reads the elements; a nil slice has none. -/
def GoSlice.toList {α : Type} : GoSlice α → List α
  | none => []
  | some l => l

/-- GoSlice.push models `append(s, a)`: appending to a nil slice allocates a
fresh non-nil slice. -/
def GoSlice.push {α : Type} (s : GoSlice α) (a : α) : GoSlice α :=
  some (s.toList ++ [a])

/-- GoSlice.isNil is true exactly for the nil slice. -/
def GoSlice.isNil {α : Type} : GoSlice α → Bool
  | none => true
  | some _ => false

/-- VarValue models the dynamic `interface{}` values carried by the
request's variable map: null, strings, numbers (as integers), booleans and
arrays. -/
inductive VarValue where
  | vnull
  | vstr (s : String)
  | vnum (n : Int)
  | vbool (b : Bool)
  | varr (elems : List VarValue)

/-- VarMap is one iteration order of the Go `map[string]interface{}` of
request-supplied variables; Go map iteration order is unspecified, so the
source function is quantified over all orders. -/
abbrev VarMap := List (String × VarValue)

/-- variableValueToString models `variableValueToString`: strings pass
through; arrays keep their string elements and join them with a comma
(an array with no string element renders empty); other values use the
`fmt.Sprintf` percent-v form (integers and booleans in their default form,
nil as the Go nil marker). -/
def variableValueToString : VarValue → String
  | .vstr v => v
  | .varr v =>
    let values := v.filterMap (fun x => match x with | .vstr s => some s | _ => none)
    if values.length > 0 then String.intercalate ("," ) values else ""
  | .vnum n => toString n
  | .vbool b => if b then "true" else "false"
  | .vnull => "<nil>"

/-- stripLeading returns the remainder of the second list after removing the
first as a leading segment, when it is one. -/
def stripLeading : List Char → List Char → Option (List Char)
  | [], s => some s
  | _ :: _, [] => none
  | p :: ps, c :: cs => if p = c then stripLeading ps cs else none

theorem stripLeading_length_le {pat s r : List Char} (h : stripLeading pat s = some r) :
    r.length ≤ s.length := by
  induction pat generalizing s with
  | nil => simp [stripLeading] at h; subst h; omega
  | cons p ps ih =>
    cases s with
    | nil => simp [stripLeading] at h
    | cons c cs =>
      by_cases hp : p = c
      · simp [stripLeading, hp] at h
        have := ih h
        simp
        omega
      · simp [stripLeading, hp] at h

/-- replaceAllFuel models the match scan of `regexp.ReplaceAllString` for a
literal pattern with first character `p` and remaining characters `ps` (the
braced placeholder form after `QuoteMeta`): a single left-to-right scan
replacing non-overlapping occurrences with `rep`, not re-scanning replaced
output.  Because the pattern is literal, every match is the same text, so
the per-match `Regexp.Expand` of the replacement template is the same
string; the caller computes it once (see `expandTemplate`) and passes the
expanded string as `rep`.  The fuel argument only forces structural
recursion: every step consumes at least one input character, so fuel equal
to the input length is never exhausted. -/
def replaceAllFuel (p : Char) (ps rep : List Char) : Nat → List Char → List Char
  | _, [] => []
  | 0, l => l
  | fuel + 1, c :: rest =>
    if p = c then
      match stripLeading ps rest with
      | some r => rep ++ replaceAllFuel p ps rep fuel r
      | none => c :: replaceAllFuel p ps rep fuel rest
    else c :: replaceAllFuel p ps rep fuel rest

/-- isWordChar is the regexp word-character class used by the word-boundary
assertion. -/
def isWordChar (c : Char) : Bool := c.isAlphanum || c = '_'

/-- boundaryOk decides the regexp word-boundary assertion between the
previous character and the rest of the input (end of input counts as
non-word). -/
def boundaryOk (prev : Char) : List Char → Bool
  | [] => isWordChar prev
  | d :: _ => isWordChar prev != isWordChar d

/-- simpleReplaceFuel models the match scan of `regexp.ReplaceAllString`
for the pattern made of a dollar sign, the literal variable name and a
trailing word boundary (the simple placeholder form after `QuoteMeta`),
with `rep` the already-expanded replacement, as in `replaceAllFuel`.  The
fuel argument only forces structural recursion. -/
def simpleReplaceFuel (name rep : List Char) : Nat → List Char → List Char
  | _, [] => []
  | 0, l => l
  | fuel + 1, c :: rest =>
    if c = '$' then
      match stripLeading name rest with
      | some r =>
        if boundaryOk (name.getLastD '$') r then rep ++ simpleReplaceFuel name rep fuel r
        else c :: simpleReplaceFuel name rep fuel rest
      | none => c :: simpleReplaceFuel name rep fuel rest
    else c :: simpleReplaceFuel name rep fuel rest

/-- isRefNameChar is the class of characters Go's `Regexp.Expand` accepts
in a reference name: letters, digits and underscore (modelled on the ASCII
range the claims exercise). -/
def isRefNameChar (c : Char) : Bool := c.isAlphanum || c = '_'

/-- extractRef models the `extract` step of Go's `Regexp.Expand`: after a
dollar sign, a brace-delimited or bare reference name — a non-empty maximal
run of letters, digits and underscores, with the closing brace required in
the braced form.  Returns the name and the remaining template, or none when
the reference is malformed. -/
def extractRef (s : List Char) : Option (List Char × List Char) :=
  match s with
  | '\x7b' :: rest =>
    let name := rest.takeWhile isRefNameChar
    if name.isEmpty then none
    else
      match rest.drop name.length with
      | '\x7d' :: rest2 => some (name, rest2)
      | _ => none
  | _ =>
    let name := s.takeWhile isRefNameChar
    if name.isEmpty then none else some (name, s.drop name.length)

/-- expandTemplateFuel models Go's `Regexp.Expand` of a replacement
template, specialised to the patterns the source compiles: literal
(QuoteMeta-escaped) patterns declaring no capture groups, whose only
submatch is the whole match.  Two dollars yield a literal dollar; a
well-formed dollar reference yields the whole matched text when its name
parses as the submatch number 0 (Go rejects leading zeros, so only the
name 0 itself) and the empty string for every other reference (an
out-of-range submatch index, or a name these groupless patterns do not
declare); a malformed dollar stays literal and scanning continues after
it.  The fuel argument only forces structural recursion: every step
consumes at least one template character. -/
def expandTemplateFuel (matched : List Char) : Nat → List Char → List Char
  | _, [] => []
  | 0, l => l
  | fuel + 1, c :: rest =>
    if c = '$' then
      match rest with
      | '$' :: rest2 => '$' :: expandTemplateFuel matched fuel rest2
      | _ =>
        match extractRef rest with
        | some (name, rest2) =>
          (if name = ['0'] then matched else []) ++ expandTemplateFuel matched fuel rest2
        | none => '$' :: expandTemplateFuel matched fuel rest
    else c :: expandTemplateFuel matched fuel rest

/-- expandTemplate is the adequate-fuel wrapper for the replacement
template expansion of `Regexp.Expand`. -/
def expandTemplate (matched template : List Char) : List Char :=
  expandTemplateFuel matched template.length template

theorem expandTemplateFuel_no_dollar (matched : List Char) :
    ∀ (fuel : Nat) (template : List Char), '$' ∉ template →
      expandTemplateFuel matched fuel template = template := by
  intro fuel
  induction fuel with
  | zero =>
    intro t ht
    cases t <;> rfl
  | succ f ih =>
    intro t ht
    cases t with
    | nil => rfl
    | cons c rest =>
      have hc : ¬(c = '$') := fun h => ht (by rw [← h]; exact List.mem_cons_self c rest)
      have hrest : '$' ∉ rest := fun h => ht (List.mem_cons_of_mem c h)
      simp only [expandTemplateFuel, if_neg hc]
      rw [ih rest hrest]

theorem expandTemplate_no_dollar (matched template : List Char) (h : '$' ∉ template) :
    expandTemplate matched template = template :=
  expandTemplateFuel_no_dollar matched template.length template h

/-- interpolateOne performs the two `ReplaceAllString` calls the source
applies for one variable: the variable's rendered value is the replacement
template, expanded as in `Regexp.Expand` against the pattern's constant
match text (the placeholder itself), and every occurrence of the braced
placeholder, then of the dollar form followed by a word boundary, is
replaced by the corresponding expanded string. -/
def interpolateOne (text : String) (name valueStr : String) : String :=
  let bracedRep := expandTemplate ('$' :: '\x7b' :: name.data ++ ['\x7d']) valueStr.data
  let r1 := replaceAllFuel '$' ('\x7b' :: name.data ++ ['\x7d']) bracedRep text.data.length text.data
  let simpleRep := expandTemplate ('$' :: name.data) valueStr.data
  String.mk (simpleReplaceFuel name.data simpleRep r1.length r1)

/-- interpolateVariables models `interpolateVariables`: a fold over one
iteration order of the variable map, skipping nil values, converting each
value to a string and substituting both placeholder forms into the
accumulated result. -/
def interpolateVariables (text : String) (vars : VarMap) : String :=
  vars.foldl
    (fun result pair =>
      match pair.2 with
      | .vnull => result
      | v => interpolateOne result pair.1 (variableValueToString v))
    text

/-- queryFields is the allow-list of query-text fields rewritten inside a
target, as listed in `interpolateVariablesInTarget`. -/
def queryFields : List String :=
  ["expr", "query", "rawQuery", "select", "from", "where", "group", "alias",
   "legendFormat", "format", "interval", "step", "measurement", "metric",
   "table", "database"]

/-- interpolateVariablesInTarget models `interpolateVariablesInTarget`:
each allow-listed field that holds a string is interpolated in place, then
the nested `datasource.uid` string, if present, is interpolated. -/
def interpolateVariablesInTarget (vars : VarMap) (target : Json) : Json :=
  let t1 := queryFields.foldl
    (fun t field =>
      match t.get field with
      | .str s => t.set field (.str (interpolateVariables s vars))
      | _ => t)
    target
  let ds := t1.get ("datasource")
  if ds.isNull then t1
  else
    match ds.get ("uid") with
    | .str s => t1.set ("datasource") (ds.set ("uid") (.str (interpolateVariables s vars)))
    | _ => t1

/-- interpolateVariablesInPanelFuel models `interpolateVariablesInPanel`:
panel title, description, panel-level `datasource.uid`, every target, and
recursively the nested panels of a row.  The fuel argument only forces
structural recursion on the nested-panel descent; the wrapper passes the
panel's size, which bounds the nesting depth. -/
def interpolateVariablesInPanelFuel (vars : VarMap) : Nat → Json → Json
  | 0, p => p
  | fuel + 1, p =>
    let p1 :=
      if (p.get ("title")).isNull then p
      else p.set ("title") (.str (interpolateVariables ((p.get ("title")).mustString) vars))
    let p2 :=
      if (p1.get ("description")).isNull then p1
      else p1.set ("description") (.str (interpolateVariables ((p1.get ("description")).mustString) vars))
    let p3 :=
      let ds := p2.get ("datasource")
      if ds.isNull then p2
      else
        match ds.get ("uid") with
        | .str s => p2.set ("datasource") (ds.set ("uid") (.str (interpolateVariables s vars)))
        | _ => p2
    let p4 :=
      let targets := p3.get ("targets")
      if targets.isNull then p3
      else
        match targets with
        | .arr ts => p3.set ("targets") (.arr (ts.map (interpolateVariablesInTarget vars)))
        | _ => p3
    let panels := p4.get ("panels")
    if panels.isNull then p4
    else
      match panels with
      | .arr ps => p4.set ("panels") (.arr (ps.map (interpolateVariablesInPanelFuel vars fuel)))
      | _ => p4

/-- interpolateVariablesInPanel is the fuel wrapper for
`interpolateVariablesInPanel`. -/
def interpolateVariablesInPanel (vars : VarMap) (p : Json) : Json :=
  interpolateVariablesInPanelFuel vars p.size p

/-- interpolateVariablesInElementV2 models `interpolateVariablesInElementV2`:
under the element's `spec`, the datasource `uid` and `name` strings are
interpolated, then every query under `spec.data.spec.queries`. -/
def interpolateVariablesInElementV2 (vars : VarMap) (element : Json) : Json :=
  let spec := element.get ("spec")
  if spec.isNull then element
  else
    let spec1 :=
      let ds := spec.get ("datasource")
      if ds.isNull then spec
      else
        let ds1 :=
          match ds.get ("uid") with
          | .str s => ds.set ("uid") (.str (interpolateVariables s vars))
          | _ => ds
        let ds2 :=
          match ds1.get ("name") with
          | .str s => ds1.set ("name") (.str (interpolateVariables s vars))
          | _ => ds1
        spec.set ("datasource") ds2
    let spec2 :=
      let data := spec1.get ("data")
      if data.isNull then spec1
      else
        let dataSpec := data.get ("spec")
        if dataSpec.isNull then spec1
        else
          match dataSpec.get ("queries") with
          | .arr qs =>
            spec1.set ("data")
              (data.set ("spec")
                (dataSpec.set ("queries") (.arr (qs.map (interpolateVariablesInTarget vars)))))
          | _ => spec1
    element.set ("spec") spec2

/-- interpolateVariablesInDashboard models `interpolateVariablesInDashboard`:
the document title, every v1 panel, and every v2 element. -/
def interpolateVariablesInDashboard (vars : VarMap) (dashboard : Json) : Json :=
  let d1 :=
    if (dashboard.get ("title")).isNull then dashboard
    else dashboard.set ("title") (.str (interpolateVariables ((dashboard.get ("title")).mustString) vars))
  let d2 :=
    let panels := d1.get ("panels")
    if panels.isNull then d1
    else
      match panels with
      | .arr ps => d1.set ("panels") (.arr (ps.map (interpolateVariablesInPanel vars)))
      | _ => d1
  let elements := d2.get ("elements")
  if elements.isNull then d2
  else
    match elements with
    | .obj em => d2.set ("elements") (.obj (em.map (fun kv => (kv.1, interpolateVariablesInElementV2 vars kv.2))))
    | _ => d2

/-- escapeChar escapes one character for JSON string output. -/
def escapeChar (c : Char) : String :=
  if c = '"' then "\\\"" else if c = '\\' then "\\\\" else String.singleton c

/-- escapeString escapes a string for JSON string output. -/
def escapeString (s : String) : String :=
  String.join (s.data.map escapeChar)

/-- serializeFuel renders a Json tree in the canonical serialized form
produced by `Encode` (fields in stored order).  The fuel argument only
forces structural recursion; the wrapper passes the tree's size. -/
def serializeFuel : Nat → Json → String
  | 0, _ => ""
  | fuel + 1, j =>
    match j with
    | .null => "null"
    | .bool b => if b then "true" else "false"
    | .num n => toString n
    | .str s => "\"" ++ escapeString s ++ "\""
    | .arr xs => "[" ++ String.intercalate ("," ) (xs.map (serializeFuel fuel)) ++ "]"
    | .obj fs =>
      "\x7b" ++
        String.intercalate ("," )
          (fs.map (fun kv => "\"" ++ escapeString kv.1 ++ "\":" ++ serializeFuel fuel kv.2)) ++
        "\x7d"

/-- Json.serialize is the fuel wrapper for the serialized (encoded) byte
form of a document. -/
def Json.serialize (j : Json) : String := serializeFuel j.size j

/-- Dashboard models `dashboards.Dashboard` up to the fields
`applyTemplateVariables` copies; the JSON document behind `Data` is held by
reference into an explicit heap, so that in-place mutation and instance
identity are observable. -/
structure Dashboard where
  id : Int
  uid : String
  title : String
  dataRef : Nat
  orgId : Int
  created : Int
  updated : Int

/-- Heap is the store of live `simplejson.Json` documents; a `dataRef`
indexes into it. -/
abbrev Heap := List Json

/-- heapRead dereferences a document pointer. -/
def heapRead (heap : Heap) (ref : Nat) : Json := heap.getD ref .null

/-- applyTemplateVariables models `applyTemplateVariables` on the
non-failing path: encode the dashboard's data, re-parse it into a freshly
allocated document (on the inductive Json tree the encode/decode round trip
is the identity, and the Go failure cases — circular references,
non-serializable values — cannot occur), build a new Dashboard value
pointing at the fresh cell, and interpolate the copy in place. -/
def applyTemplateVariables (heap : Heap) (dashboard : Dashboard) (vars : VarMap) :
    Heap × Dashboard :=
  let copiedData := heapRead heap dashboard.dataRef
  let newRef := heap.length
  let heap1 := heap ++ [copiedData]
  let dashboardCopy : Dashboard :=
    { id := dashboard.id, uid := dashboard.uid, title := dashboard.title,
      dataRef := newRef, orgId := dashboard.orgId,
      created := dashboard.created, updated := dashboard.updated }
  let heap2 := heap1.set newRef (interpolateVariablesInDashboard vars copiedData)
  (heap2, dashboardCopy)

/-- Modelled from the spec: the built-in expression/command pseudo-datasource
identity tested by `expr.NodeTypeFromDatasourceUID(uid) == expr.TypeCMDNode`.
The `pkg/expr` package is not among the provided sources; the spec describes
the check as the query's datasource UID "matching the built-in
expression/command datasource identity", which for Grafana's expression
engine is the UID `__expr__` (with the historical sentinel `-100`). -/
def isExpressionDatasourceUID (uid : String) : Bool :=
  uid == "__expr__" || uid == "-100"

/-- getDataSourceUidFromJson models `getDataSourceUidFromJson`: the
`datasource.uid` string, falling back to a datasource given directly as a
string (pre-8.3 documents). -/
def getDataSourceUidFromJson (query : Json) : String :=
  let uid := (((query.get ("datasource")).get ("uid")).mustString)
  if uid == "" then ((query.get ("datasource")).mustString) else uid

/-- getDataSourceUidFromJsonSchemaV2 models `getDataSourceUidFromJsonSchemaV2`:
as the v1 form, but reading `datasource.name`. -/
def getDataSourceUidFromJsonSchemaV2 (query : Json) : String :=
  let uid := (((query.get ("datasource")).get ("name")).mustString)
  if uid == "" then ((query.get ("datasource")).mustString) else uid

/-- panelHasAnExpression models `panelHasAnExpression`: some target of the
panel resolves to the expression pseudo-datasource. -/
def panelHasAnExpression (panel : Json) : Bool :=
  ((panel.get ("targets")).mustArray).any
    (fun q => isExpressionDatasourceUID (getDataSourceUidFromJson q))

/-- panelHasAnExpressionSchemaV2 models `panelHasAnExpressionSchemaV2`:
the v2 walk through `spec.data.spec.queries[].spec.query`. -/
def panelHasAnExpressionSchemaV2 (panel : Json) : Bool :=
  let spec := panel.get ("spec")
  if spec.isNull then false
  else
    let data := spec.get ("data")
    if data.isNull then false
    else
      let dataSpec := data.get ("spec")
      if dataSpec.isNull then false
      else
        let queries := dataSpec.get ("queries")
        if queries.isNull then false
        else
          queries.mustArray.any (fun q =>
            let querySpec := q.get ("spec")
            if querySpec.isNull then false
            else
              let queryData := querySpec.get ("query")
              if queryData.isNull then false
              else isExpressionDatasourceUID (getDataSourceUidFromJsonSchemaV2 queryData))

/-- transformQuery is the per-query rewriting of `extractQueriesFromPanels`
on a kept v1 query: drop the unsupported `exemplar` field, then synthesize
an inherited datasource (`type "public-ds"`, the panel's resolved uid) when
the query carries none. -/
def transformQuery (panel : Json) (query : Json) : Json :=
  let q1 := query.del ("exemplar")
  if (q1.checkGet ("datasource")).isSome then q1
  else
    q1.set ("datasource")
      (.obj [("type", .str "public-ds"), ("uid", .str (getDataSourceUidFromJson panel))])

/-- panelTargetQueries is the per-panel loop body of
`extractQueriesFromPanels`: walk the panel's targets, skip a hidden query
when the panel has no expression query, and rewrite the kept ones.  The
accumulator is a Go slice that stays nil when nothing is appended. -/
def panelTargetQueries (panel : Json) : GoSlice Json :=
  let hasExpression := panelHasAnExpression panel
  ((panel.get ("targets")).mustArray).foldl
    (fun acc q =>
      if !hasExpression && (q.get ("hide")).mustBool then acc
      else acc.push (transformQuery panel q))
    none

/-- isCollapsedRow is the row test of `extractQueriesFromPanels`: type
`row` and `collapsed` true. -/
def isCollapsedRow (panel : Json) : Bool :=
  ((panel.get ("type")).mustString == "row") && (panel.get ("collapsed")).mustBool

/-- PanelMap is the Go map from panel id to the panel's extracted queries,
in insertion order. -/
abbrev PanelMap := List (Int × GoSlice Json)

/-- extractQueriesFromPanelsFuel models `extractQueriesFromPanels`: walk the
panel list; a collapsed row is not itself recorded, its nested panels are
walked instead; any other panel maps its id to its kept, rewritten targets.
The fuel argument only forces structural recursion: every recursive call
strictly shrinks the total size of the panel list, so fuel equal to that
size is never exhausted. -/
def extractQueriesFromPanelsFuel : Nat → List Json → PanelMap → PanelMap
  | _, [], result => result
  | 0, _ :: _, result => result
  | fuel + 1, panel :: rest, result =>
    if isCollapsedRow panel then
      extractQueriesFromPanelsFuel fuel rest
        (extractQueriesFromPanelsFuel fuel ((panel.get ("panels")).mustArray) result)
    else
      extractQueriesFromPanelsFuel fuel rest
        (AListSet result ((panel.get ("id")).mustInt64) (panelTargetQueries panel))

/-- extractQueriesFromPanels is the adequate-fuel wrapper for
`extractQueriesFromPanels`. -/
def extractQueriesFromPanels (panels : List Json) (result : PanelMap) : PanelMap :=
  extractQueriesFromPanelsFuel (Json.sizeList panels) panels result

/-- groupQueriesByPanelId models `groupQueriesByPanelId`. -/
def groupQueriesByPanelId (dashboard : Json) : PanelMap :=
  extractQueriesFromPanels ((dashboard.get ("panels")).mustArray) []

theorem extractQueriesFromPanelsFuel_stable :
    ∀ fuel₁ fuel₂ panels result, Json.sizeList panels ≤ fuel₁ → Json.sizeList panels ≤ fuel₂ →
      extractQueriesFromPanelsFuel fuel₁ panels result =
        extractQueriesFromPanelsFuel fuel₂ panels result := by
  intro fuel₁
  induction fuel₁ with
  | zero =>
    intro fuel₂ panels result h1 h2
    cases panels with
    | nil => cases fuel₂ <;> rfl
    | cons p rest =>
      exfalso
      have := Json.size_pos p
      simp [Json.sizeList] at h1
      omega
  | succ f ih =>
    intro fuel₂ panels result h1 h2
    cases panels with
    | nil => cases fuel₂ <;> rfl
    | cons p rest =>
      have hp := Json.size_pos p
      have hrest : Json.sizeList rest ≤ f := by
        simp [Json.sizeList] at h1; omega
      cases fuel₂ with
      | zero =>
        exfalso
        simp [Json.sizeList] at h2
        omega
      | succ g =>
        have hrest2 : Json.sizeList rest ≤ g := by
          simp [Json.sizeList] at h2; omega
        by_cases hrow : isCollapsedRow p
        · have hnest : Json.sizeList ((p.get ("panels")).mustArray) ≤ f := by
            have := Json.sizeList_get_mustArray_lt p ("panels")
            simp [Json.sizeList] at h1
            omega
          have hnest2 : Json.sizeList ((p.get ("panels")).mustArray) ≤ g := by
            have := Json.sizeList_get_mustArray_lt p ("panels")
            simp [Json.sizeList] at h2
            omega
          simp only [extractQueriesFromPanelsFuel, hrow, if_true]
          rw [ih g _ _ hnest hnest2]
          exact ih g rest _ hrest hrest2
        · simp only [extractQueriesFromPanelsFuel, hrow, if_false]
          exact ih g rest _ hrest hrest2

theorem extractQueriesFromPanels_nil (result : PanelMap) :
    extractQueriesFromPanels [] result = result := rfl

theorem extractQueriesFromPanels_cons_row {p : Json} (rest : List Json) (result : PanelMap)
    (h : isCollapsedRow p = true) :
    extractQueriesFromPanels (p :: rest) result =
      extractQueriesFromPanels rest
        (extractQueriesFromPanels ((p.get ("panels")).mustArray) result) := by
  have hp := Json.size_pos p
  have hnest := Json.sizeList_get_mustArray_lt p ("panels")
  obtain ⟨m, hm⟩ : ∃ m, Json.sizeList (p :: rest) = m + 1 :=
    ⟨Json.sizeList (p :: rest) - 1, by simp [Json.sizeList]; omega⟩
  unfold extractQueriesFromPanels
  rw [hm]
  simp only [extractQueriesFromPanelsFuel, h, if_true]
  have hm' : Json.size p + Json.sizeList rest = m + 1 := by
    simpa [Json.sizeList] using hm
  rw [extractQueriesFromPanelsFuel_stable m (Json.sizeList ((p.get ("panels")).mustArray)) _ result
        (by omega) (by omega)]
  exact extractQueriesFromPanelsFuel_stable m (Json.sizeList rest) rest _ (by omega) (by omega)

theorem extractQueriesFromPanels_cons_panel {p : Json} (rest : List Json) (result : PanelMap)
    (h : isCollapsedRow p = false) :
    extractQueriesFromPanels (p :: rest) result =
      extractQueriesFromPanels rest
        (AListSet result ((p.get ("id")).mustInt64) (panelTargetQueries p)) := by
  have hp := Json.size_pos p
  obtain ⟨m, hm⟩ : ∃ m, Json.sizeList (p :: rest) = m + 1 :=
    ⟨Json.sizeList (p :: rest) - 1, by simp [Json.sizeList]; omega⟩
  unfold extractQueriesFromPanels
  rw [hm]
  simp only [extractQueriesFromPanelsFuel, h, if_false]
  have hm' : Json.size p + Json.sizeList rest = m + 1 := by
    simpa [Json.sizeList] using hm
  exact extractQueriesFromPanelsFuel_stable m (Json.sizeList rest) rest _ (by omega) (by omega)

theorem extractQueriesFromPanels_append (a b : List Json) (result : PanelMap) :
    extractQueriesFromPanels (a ++ b) result =
      extractQueriesFromPanels b (extractQueriesFromPanels a result) := by
  induction a generalizing result with
  | nil => simp [extractQueriesFromPanels_nil]
  | cons p rest ih =>
    by_cases h : isCollapsedRow p
    · rw [List.cons_append, extractQueriesFromPanels_cons_row _ _ h,
        extractQueriesFromPanels_cons_row _ _ h, ih]
    · rw [List.cons_append,
        extractQueriesFromPanels_cons_panel _ _ (by simpa using h),
        extractQueriesFromPanels_cons_panel _ _ (by simpa using h), ih]

/-- elementQueriesV2 is the per-element loop body of
`groupQueriesByPanelIdV2`: reach `spec.data.spec.queries`, skip entries
without a `spec`, skip hidden queries when the element has no expression
query, unwrap `spec.query.spec`, drop `exemplar`, inherit a datasource
(type from the query kind's `group`, uid resolved from the kind) when none
is set, drop `exemplar` again, and collect the unwrapped query. -/
def elementQueriesV2 (element : Json) : GoSlice Json :=
  let hasExpression := panelHasAnExpressionSchemaV2 element
  let spec := element.get ("spec")
  if spec.isNull then none
  else
    let data := spec.get ("data")
    if data.isNull then none
    else
      let dataSpec := data.get ("spec")
      if dataSpec.isNull then none
      else
        let queries := dataSpec.get ("queries")
        if queries.isNull then none
        else
          queries.mustArray.foldl
            (fun acc queryObj =>
              let panelQuerySpec := queryObj.get ("spec")
              if panelQuerySpec.isNull then acc
              else if !hasExpression && (panelQuerySpec.get ("hidden")).mustBool then acc
              else
                let dataQueryKind := panelQuerySpec.get ("query")
                if dataQueryKind.isNull then acc
                else
                  let dataQuerySpec := dataQueryKind.get ("spec")
                  if dataQuerySpec.isNull then acc
                  else
                    let d1 := dataQuerySpec.del ("exemplar")
                    let group := (dataQueryKind.get ("group")).mustString
                    let d2 :=
                      if (d1.checkGet ("datasource")).isSome then d1
                      else
                        d1.set ("datasource")
                          (.obj [("type", .str group),
                                 ("uid", .str (getDataSourceUidFromJsonSchemaV2 dataQueryKind))])
                    acc.push (d2.del ("exemplar")))
            none

/-- groupQueriesByPanelIdV2 models `groupQueriesByPanelIdV2`: every element
of the `elements` map is recorded under its `spec.id`. -/
def groupQueriesByPanelIdV2 (dashboard : Json) : PanelMap :=
  ((dashboard.get ("elements")).mustMap).foldl
    (fun result kv =>
      AListSet result (((kv.2.get ("spec")).get ("id")).mustInt64) (elementQueriesV2 kv.2))
    []

/-- attachQueryParams models the per-query parameter attachment done by
`buildMetricRequest` and `buildMetricRequestV2` on every extracted query:
`intervalMs` and `maxDataPoints` carry the values computed by
`getSafeIntervalAndMaxDataPoints` (that clamping helper lives outside the
provided sources, so the already-computed values are parameters here) and
`queryCachingTTL` carries the request's value. -/
def attachQueryParams (safeInterval safeResolution ttl : Int) (q : Json) : Json :=
  ((q.set ("intervalMs") (.num safeInterval)).set
      ("maxDataPoints") (.num safeResolution)).set
    ("queryCachingTTL") (.num ttl)

theorem AListGet_filter_ne {fs : List (String × Json)} {k : String} :
    AListGet (fs.filter (fun kv => kv.1 != k)) k = none := by
  induction fs with
  | nil => rfl
  | cons kv rest ih =>
    by_cases h : (kv.1 != k) = true
    · have hne : (kv.1 == k) = false := by
        simp only [bne] at h
        cases hkk : kv.1 == k <;> simp [hkk] at h ⊢
      simp [List.filter, h, AListGet, hne, ih]
    · simp [List.filter, h, ih]

theorem Json.hasKey_del_self (j : Json) (k : String) : (j.del k).hasKey k = false := by
  cases j <;> simp [Json.del, Json.hasKey, Json.checkGet, AListGet_filter_ne]

theorem AListGet_set_ne {fs : List (String × Json)} {k k' : String} {v : Json} (h : k' ≠ k) :
    AListGet (AListSet fs k' v) k = AListGet fs k := by
  induction fs with
  | nil =>
    have : (k' == k) = false := by simp [h]
    simp [AListSet, AListGet, this]
  | cons kv rest ih =>
    by_cases hk : (kv.1 == k') = true
    · have hkk : kv.1 = k' := by simpa using hk
      have : (kv.1 == k) = false := by simp [hkk, h]
      simp [AListSet, hk, AListGet, this]
    · simp [AListSet, hk, AListGet, ih]

theorem Json.hasKey_set_ne (j : Json) {k k' : String} (v : Json) (h : k' ≠ k) :
    ((j.set k' v).hasKey k) = j.hasKey k := by
  cases j <;> simp [Json.set, Json.hasKey, Json.checkGet, AListGet_set_ne h]

/-- exemplarFree states that a query object does not carry the `exemplar`
field. -/
def exemplarFree (q : Json) : Prop := q.hasKey ("exemplar") = false

theorem transformQuery_exemplarFree (panel q : Json) : exemplarFree (transformQuery panel q) := by
  unfold exemplarFree transformQuery
  by_cases h : (((q.del ("exemplar")).checkGet ("datasource")).isSome) = true
  · simp only [h, if_true]
    exact Json.hasKey_del_self q ("exemplar")
  · simp only [h]
    simp only [if_false, Bool.not_eq_true] at *
    rw [if_neg (by simp [h])]
    rw [Json.hasKey_set_ne _ _ (by decide)]
    exact Json.hasKey_del_self q ("exemplar")

theorem attachQueryParams_exemplarFree (si sr ttl : Int) (q : Json) (h : exemplarFree q) :
    exemplarFree (attachQueryParams si sr ttl q) := by
  unfold exemplarFree attachQueryParams
  rw [Json.hasKey_set_ne _ _ (by decide), Json.hasKey_set_ne _ _ (by decide),
    Json.hasKey_set_ne _ _ (by decide)]
  exact h

theorem GoSlice.toList_push {α : Type} (s : GoSlice α) (a : α) :
    (s.push a).toList = s.toList ++ [a] := by
  cases s <;> rfl

theorem panelTargetQueries_exemplarFree (panel : Json) :
    ∀ q ∈ (panelTargetQueries panel).toList, exemplarFree q := by
  unfold panelTargetQueries
  generalize (panel.get ("targets")).mustArray = targets
  have key : ∀ (l : List Json) (acc : GoSlice Json),
      (∀ q ∈ acc.toList, exemplarFree q) →
      ∀ q ∈ (l.foldl
          (fun acc q =>
            if !panelHasAnExpression panel && (q.get ("hide")).mustBool then acc
            else acc.push (transformQuery panel q)) acc).toList, exemplarFree q := by
    intro l
    induction l with
    | nil => intro acc hacc; simpa using hacc
    | cons x xs ih =>
      intro acc hacc
      simp only [List.foldl_cons]
      by_cases hx : (!panelHasAnExpression panel && (x.get ("hide")).mustBool) = true
      · rw [if_pos hx]
        exact ih acc hacc
      · rw [if_neg hx]
        refine ih _ ?_
        intro q hq
        rw [GoSlice.toList_push] at hq
        rcases List.mem_append.mp hq with h | h
        · exact hacc q h
        · rcases List.mem_singleton.mp h with rfl
          exact transformQuery_exemplarFree panel x
  intro q hq
  exact key targets none (by intro q hq; simp [GoSlice.toList] at hq) q hq

theorem elementQueriesV2_exemplarFree (element : Json) :
    ∀ q ∈ (elementQueriesV2 element).toList, exemplarFree q := by
  unfold elementQueriesV2
  by_cases h1 : ((element.get ("spec")).isNull) = true
  · simp only [h1, if_true]
    intro q hq
    simp [GoSlice.toList] at hq
  · simp only [h1, if_false]
    by_cases h2 : (((element.get ("spec")).get ("data")).isNull) = true
    · simp only [h2, if_true]
      intro q hq
      simp [GoSlice.toList] at hq
    · simp only [h2, if_false]
      by_cases h3 : ((((element.get ("spec")).get ("data")).get ("spec")).isNull) = true
      · simp only [h3, if_true]
        intro q hq
        simp [GoSlice.toList] at hq
      · simp only [h3, if_false]
        by_cases h4 : (((((element.get ("spec")).get ("data")).get ("spec")).get ("queries")).isNull) = true
        · simp only [h4, if_true]
          intro q hq
          simp [GoSlice.toList] at hq
        · simp only [h4, if_false]
          generalize (((((element.get ("spec")).get ("data")).get ("spec")).get ("queries")).mustArray) = qs
          have key : ∀ (l : List Json) (acc : GoSlice Json),
              (∀ q ∈ acc.toList, exemplarFree q) →
              ∀ q ∈ (l.foldl
                  (fun acc queryObj =>
                    let panelQuerySpec := queryObj.get ("spec")
                    if panelQuerySpec.isNull then acc
                    else if !panelHasAnExpressionSchemaV2 element && (panelQuerySpec.get ("hidden")).mustBool then acc
                    else
                      let dataQueryKind := panelQuerySpec.get ("query")
                      if dataQueryKind.isNull then acc
                      else
                        let dataQuerySpec := dataQueryKind.get ("spec")
                        if dataQuerySpec.isNull then acc
                        else
                          let d1 := dataQuerySpec.del ("exemplar")
                          let group := (dataQueryKind.get ("group")).mustString
                          let d2 :=
                            if (d1.checkGet ("datasource")).isSome then d1
                            else
                              d1.set ("datasource")
                                (.obj [("type", .str group),
                                       ("uid", .str (getDataSourceUidFromJsonSchemaV2 dataQueryKind))])
                          acc.push (d2.del ("exemplar"))) acc).toList, exemplarFree q := by
            intro l
            induction l with
            | nil => intro acc hacc; simpa using hacc
            | cons x xs ih =>
              intro acc hacc
              simp only [List.foldl_cons]
              refine ih _ ?_
              intro q hq
              split at hq
              · exact hacc q hq
              · split at hq
                · exact hacc q hq
                · split at hq
                  · exact hacc q hq
                  · split at hq
                    · exact hacc q hq
                    · rw [GoSlice.toList_push] at hq
                      rcases List.mem_append.mp hq with h | h
                      · exact hacc q h
                      · rcases List.mem_singleton.mp h with rfl
                        exact Json.hasKey_del_self _ ("exemplar")
          intro q hq
          exact key qs none (by intro q hq; simp [GoSlice.toList] at hq) q hq

theorem AListGet_AListSet_cases {κ ν : Type} [BEq κ] {m : List (κ × ν)} {k k' : κ} {v v' : ν}
    (h : AListGet (AListSet m k' v') k = some v) : v = v' ∨ AListGet m k = some v := by
  induction m with
  | nil =>
    by_cases hk : (k' == k) = true
    · simp [AListSet, AListGet, hk] at h
      exact Or.inl h.symm
    · simp [AListSet, AListGet, hk] at h
  | cons kv rest ih =>
    by_cases hk : (kv.1 == k') = true
    · rw [show kv = (kv.1, kv.2) from rfl] at h ⊢
      simp only [AListSet, hk, if_true] at h
      by_cases hkk : (kv.1 == k) = true
      · simp [AListGet, hkk] at h ⊢
        exact Or.inl h.symm
      · simp [AListGet, hkk] at h ⊢
        exact Or.inr h
    · rw [show kv = (kv.1, kv.2) from rfl] at h ⊢
      simp only [AListSet, hk, if_false] at h
      by_cases hkk : (kv.1 == k) = true
      · simp [AListGet, hkk] at h ⊢
        exact Or.inr h
      · simp [AListGet, hkk] at h ⊢
        exact ih h

theorem extractQueriesFromPanelsFuel_values (P : GoSlice Json → Prop)
    (hP : ∀ p, P (panelTargetQueries p)) :
    ∀ fuel panels result, (∀ k v, AListGet result k = some v → P v) →
      ∀ k v, AListGet (extractQueriesFromPanelsFuel fuel panels result) k = some v → P v := by
  intro fuel
  induction fuel with
  | zero =>
    intro panels result hres k v h
    cases panels with
    | nil => exact hres k v h
    | cons p rest => exact hres k v h
  | succ f ih =>
    intro panels result hres k v h
    cases panels with
    | nil => exact hres k v h
    | cons p rest =>
      by_cases hrow : isCollapsedRow p
      · simp only [extractQueriesFromPanelsFuel, hrow, if_true] at h
        exact ih rest _ (fun k' v' h' => ih _ result hres k' v' h') k v h
      · simp only [extractQueriesFromPanelsFuel, hrow, if_false] at h
        refine ih rest _ ?_ k v h
        intro k' v' h'
        rcases AListGet_AListSet_cases h' with rfl | h'
        · exact hP p
        · exact hres k' v' h'

theorem groupQueriesByPanelId_values (P : GoSlice Json → Prop)
    (hP : ∀ p, P (panelTargetQueries p)) (dashboard : Json) :
    ∀ k v, AListGet (groupQueriesByPanelId dashboard) k = some v → P v := by
  intro k v h
  exact extractQueriesFromPanelsFuel_values P hP _ _ []
    (by intro k' v' h'; simp [AListGet] at h') k v h

theorem groupQueriesByPanelIdV2_values (P : GoSlice Json → Prop)
    (hP : ∀ e, P (elementQueriesV2 e)) (dashboard : Json) :
    ∀ k v, AListGet (groupQueriesByPanelIdV2 dashboard) k = some v → P v := by
  unfold groupQueriesByPanelIdV2
  generalize ((dashboard.get ("elements")).mustMap) = elems
  have key : ∀ (l : List (String × Json)) (result : PanelMap),
      (∀ k v, AListGet result k = some v → P v) →
      ∀ k v, AListGet (l.foldl
        (fun result kv =>
          AListSet result (((kv.2.get ("spec")).get ("id")).mustInt64) (elementQueriesV2 kv.2))
        result) k = some v → P v := by
    intro l
    induction l with
    | nil => intro result hres; exact hres
    | cons x xs ih =>
      intro result hres
      simp only [List.foldl_cons]
      refine ih _ ?_
      intro k v h
      rcases AListGet_AListSet_cases h with rfl | h
      · exact hP x.2
      · exact hres k v h
  exact key elems [] (by intro k v h; simp [AListGet] at h)

/-- TimeRangeDTO models the request's `TimeRange` with `From`, `To` and
`Timezone` (the Lean field names avoid the reserved word `from`). -/
structure TimeRangeDTO where
  fromStr : String
  toStr : String
  timezone : String

/-- PublicDashboardQueryDTO models `models.PublicDashboardQueryDTO`
restricted to the fields the time-window resolver reads, plus the caching
TTL attached to queries; `IntervalMs`/`MaxDataPoints` are consumed only by
`getSafeIntervalAndMaxDataPoints`, which lives outside the provided
sources, and `Variables` is passed separately where needed. -/
structure PublicDashboardQueryDTO where
  timeRange : TimeRangeDTO
  queryCachingTTL : Int

/-- Modelled from the Go standard library: `time.LoadLocation` resolves a
timezone name against the IANA database, with the empty name resolving to
UTC.  The database lives outside the program, so a small fixed set of valid
zone names stands in for it; no claim depends on which names are valid. -/
def knownTimezones : List String :=
  ["UTC", "Europe/Helsinki", "Europe/London", "America/New_York", "Asia/Tokyo"]

/-- loadLocation returns the resolved zone name, or none for an unknown
name, mirroring the error return of `time.LoadLocation`. -/
def loadLocation (name : String) : Option String :=
  if name == "" then some "UTC"
  else if knownTimezones.contains name then some name else none

/-- getPanelRelativeTimeRange models `getPanelRelativeTimeRange`: the
`timeFrom` string of the first top-level panel with the requested id, and
the empty string when no panel matches (or the matching panel has no
string `timeFrom`). -/
def getPanelRelativeTimeRange (dashboard : Json) (panelID : Int) : String :=
  match ((dashboard.get ("panels")).mustArray).find?
      (fun p => (p.get ("id")).mustInt64 == panelID) with
  | some p => ((p.get ("timeFrom")).mustString)
  | none => ""

/-- getTimeRangeValuesOrDefault models `getTimeRangeValuesOrDefault`:
document defaults from `time.from` / `time.to` / `timezone`, the panel's
relative `timeFrom` override replacing the document `from`, then — only
when time selection is enabled — the request's complete from/to pair
overriding both, and the request's timezone winning when it parses.
The third component is the resolved zone name (`UTC` on fallback). -/
def getTimeRangeValuesOrDefault (reqDTO : PublicDashboardQueryDTO) (d : Json)
    (timeSelectionEnabled : Bool) (panelID : Int) : String × String × String :=
  let fromDoc := ((d.getPath [("time"), ("from")]).mustString)
  let toDoc := ((d.getPath [("time"), ("to")]).mustString)
  let dashboardTimezone := ((d.getPath [("timezone")]).mustString)
  let panelRelativeTime := getPanelRelativeTimeRange d panelID
  let from1 := if panelRelativeTime != "" then panelRelativeTime else fromDoc
  let fromTo :=
    if timeSelectionEnabled && (reqDTO.timeRange.fromStr != "" && reqDTO.timeRange.toStr != "")
    then (reqDTO.timeRange.fromStr, reqDTO.timeRange.toStr)
    else (from1, toDoc)
  let fallback :=
    match loadLocation dashboardTimezone with
    | some tz => (fromTo.1, fromTo.2, tz)
    | none => (fromTo.1, fromTo.2, "UTC")
  if timeSelectionEnabled && reqDTO.timeRange.timezone != "" then
    match loadLocation reqDTO.timeRange.timezone with
    | some userTimezone => (fromTo.1, fromTo.2, userTimezone)
    | none => fallback
  else fallback

/-- splitOnListFuel splits a character list on a non-empty separator, as
`strings.Split` does; the fuel argument only forces structural recursion. -/
def splitOnListFuel (sep : List Char) : Nat → List Char → List (List Char)
  | _, [] => [[]]
  | 0, l => [l]
  | fuel + 1, c :: rest =>
    match stripLeading sep (c :: rest) with
    | some r => [] :: splitOnListFuel sep fuel r
    | none =>
      match splitOnListFuel sep fuel rest with
      | [] => [[c]]
      | t :: ts => (c :: t) :: ts

/-- goSplit models `strings.Split` (for the non-empty separators used by
the source; an empty separator splits into characters). -/
def goSplit (s sep : String) : List String :=
  if sep.data.isEmpty then s.data.map String.singleton
  else (splitOnListFuel sep.data s.data.length s.data).map String.mk

/-- goTrim models `strings.TrimSpace`. -/
def goTrim (s : String) : String :=
  String.mk (((s.data.dropWhile Char.isWhitespace).reverse.dropWhile Char.isWhitespace).reverse)

/-- goToLower models `strings.ToLower` on the ASCII range the source
compares against. -/
def goToLower (s : String) : String :=
  String.mk (s.data.map Char.toLower)

/-- MetricFindValue models `models.MetricFindValue`: one selectable option. -/
structure MetricFindValue where
  text : String
  value : String

/-- VariableOption models the source's `variableOption`: `Text` and `Value`
are dynamic JSON values, `Selected` a flag. -/
structure VariableOption where
  text : Json
  value : Json
  selected : Bool

/-- VariableCurrent models the source's `variableCurrent`. -/
structure VariableCurrent where
  text : Json
  value : Json

/-- VariableDefinition models the source's `variableDefinition` as decoded
by `encoding/json`; `vtype` holds the JSON `type` field, and a nil
`Datasource` map is the `none` case. -/
structure VariableDefinition where
  name : String
  vtype : String
  query : Json
  datasource : Option (List (String × Json))
  options : List VariableOption
  current : VariableCurrent
  multi : Bool
  refresh : Int
  regex : String
  sort : Int

/-- decodeStringField decodes a JSON object field into a Go string field as
`encoding/json` does: a missing key or null keeps the zero value, a string
sets it, any other shape is an unmarshal type error. -/
def decodeStringField (j : Json) (key : String) : Except String String :=
  match j.checkGet key with
  | none => .ok ""
  | some .null => .ok ""
  | some (.str s) => .ok s
  | some _ => .error "json: cannot unmarshal value into field of type string"

/-- decodeBoolField decodes a JSON object field into a Go bool field. -/
def decodeBoolField (j : Json) (key : String) : Except String Bool :=
  match j.checkGet key with
  | none => .ok false
  | some .null => .ok false
  | some (.bool b) => .ok b
  | some _ => .error "json: cannot unmarshal value into field of type bool"

/-- decodeIntField decodes a JSON object field into a Go int field. -/
def decodeIntField (j : Json) (key : String) : Except String Int :=
  match j.checkGet key with
  | none => .ok 0
  | some .null => .ok 0
  | some (.num n) => .ok n
  | some _ => .error "json: cannot unmarshal value into field of type int"

/-- decodeVariableOption decodes one entry of the `options` array. -/
def decodeVariableOption (j : Json) : Except String VariableOption := do
  match j with
  | .obj _ =>
    let selected ← decodeBoolField j ("selected")
    .ok { text := (j.checkGet ("text")).getD .null,
          value := (j.checkGet ("value")).getD .null,
          selected := selected }
  | .null => .ok { text := .null, value := .null, selected := false }
  | _ => .error "json: cannot unmarshal value into variableOption"

/-- decodeVariableDefinition models the `Encode` / `json.Unmarshal` round
trip of `findVariableInDashboard` on one templating entry. -/
def decodeVariableDefinition (j : Json) : Except String VariableDefinition := do
  match j with
  | .obj _ =>
    let name ← decodeStringField j ("name")
    let vtype ← decodeStringField j ("type")
    let datasource ←
      (match j.checkGet ("datasource") with
       | none => .ok none
       | some .null => .ok none
       | some (.obj fs) => .ok (some fs)
       | some _ => .error "json: cannot unmarshal value into field of type map")
    let options ←
      (match j.checkGet ("options") with
       | none => .ok []
       | some .null => .ok []
       | some (.arr xs) => xs.mapM decodeVariableOption
       | some _ => .error "json: cannot unmarshal value into field of type slice")
    let current ←
      (match j.checkGet ("current") with
       | none => .ok { text := .null, value := .null }
       | some .null => .ok { text := .null, value := .null }
       | some (.obj fs) =>
         .ok { text := (AListGet fs ("text")).getD .null,
               value := (AListGet fs ("value")).getD .null }
       | some _ => .error "json: cannot unmarshal value into variableCurrent")
    let multi ← decodeBoolField j ("multi")
    let refresh ← decodeIntField j ("refresh")
    let regex ← decodeStringField j ("regex")
    let sort ← decodeIntField j ("sort")
    .ok { name := name, vtype := vtype, query := (j.checkGet ("query")).getD .null,
          datasource := datasource, options := options, current := current,
          multi := multi, refresh := refresh, regex := regex, sort := sort }
  | _ => .error "json: cannot unmarshal value into variableDefinition"

/-- findVariableInDashboard models `findVariableInDashboard`: a missing
`templating` section or `templating.list` is a not-found error; otherwise
the first entry whose `name` matches is decoded. -/
def findVariableInDashboard (dashboard : Json) (variableName : String) :
    Except String VariableDefinition :=
  let templating := dashboard.get ("templating")
  if templating.isNull then
    .error "variable not found: no templating section found in dashboard"
  else
    let list := templating.get ("list")
    if list.isNull then
      .error "variable not found: no templating.list found in dashboard"
    else
      match (list.mustArray).find?
          (fun v => ((v.get ("name")).mustString == variableName)) with
      | some varJSON => decodeVariableDefinition varJSON
      | none => .error "variable not found"

/-- jsonGoString renders a decoded JSON value the way `fmt.Sprintf`
percent-v does for the shapes relevant here (strings, numbers, booleans,
nil); composite values are not exercised by any claim and get a fixed
rendering. -/
def jsonGoString : Json → String
  | .str s => s
  | .num n => toString n
  | .bool b => if b then "true" else "false"
  | .null => "<nil>"
  | .arr _ => "[]"
  | .obj _ => "map[]"

/-- getCurrentValueAsOption models `getCurrentValueAsOption`: a nil current
value yields a non-nil empty slice; a non-empty string current value yields
one option (preferring a non-empty string current text as label); an array
current value yields one option per non-empty string element, with the
matching current-text element as label when it is a string. -/
def getCurrentValueAsOption (vdef : VariableDefinition) : GoSlice MetricFindValue :=
  match vdef.current.value with
  | .null => some []
  | .str v =>
    if v != "" then
      let text :=
        match vdef.current.text with
        | .str t => if t != "" then t else v
        | _ => v
      GoSlice.push (none : GoSlice MetricFindValue) { text := text, value := v }
    else none
  | .arr vs =>
    let texts : Option (List Json) :=
      match vdef.current.text with
      | .arr ts => some ts
      | _ => none
    vs.enum.foldl
      (fun acc iv =>
        match iv.2 with
        | .str valStr =>
          if valStr != "" then
            let text :=
              match texts with
              | some ts =>
                if iv.1 < ts.length then
                  match ts.getD iv.1 .null with
                  | .str t => t
                  | _ => valStr
                else valStr
              | none => valStr
            acc.push { text := text, value := valStr }
          else acc
        | _ => acc)
      none
  | _ => none

/-- FieldValue models one cell of a data-frame column, covering the
concrete and pointer (nullable) forms `fieldValueToString` handles; a nil
pointer or nil interface is `fnull`. -/
inductive FieldValue where
  | fnull
  | fstr (s : String)
  | fint (n : Int)
  | fbool (b : Bool)

/-- fieldValueToString models `fieldValueToString`. -/
def fieldValueToString : FieldValue → String
  | .fnull => ""
  | .fstr s => s
  | .fint n => toString n
  | .fbool b => if b then "true" else "false"

/-- DataField models `data.Field`: a named column of cells. -/
structure DataField where
  name : String
  values : List FieldValue

/-- Frame models `data.Frame` with possibly-nil field pointers. -/
structure Frame where
  fields : List (Option DataField)

/-- DataResponse models one per-refId `backend.DataResponse`: an optional
execution error and possibly-nil frames. -/
structure DataResponse where
  err : Option String
  frames : List (Option Frame)

/-- QueryDataResponse models `backend.QueryDataResponse.Responses` in one
iteration order. -/
abbrev QueryDataResponse := List (String × DataResponse)

/-- MetricRequest models `dtos.MetricRequest`. -/
structure MetricRequest where
  fromStr : String
  toStr : String
  queries : List Json

/-- extractFrameOptions is the per-frame body of
`extractOptionsFromQueryResponse`: locate a text column by case-insensitive
name among text/__text/name/label (the loop keeps the last match) and a
value column among value/__value/id, default both to the first column when
it is present and non-nil, then emit one option per row with a non-empty
text. -/
def extractFrameOptions (frame : Frame) (acc : List MetricFindValue) : List MetricFindValue :=
  let textField0 := frame.fields.foldl
    (fun sel f =>
      match f with
      | some fld =>
        let n := goToLower fld.name
        if n == "text" || n == "__text" || n == "name" || n == "label" then some fld else sel
      | none => sel)
    none
  let valueField0 := frame.fields.foldl
    (fun sel f =>
      match f with
      | some fld =>
        let n := goToLower fld.name
        if n == "value" || n == "__value" || n == "id" then some fld else sel
      | none => sel)
    none
  let firstField := (frame.fields.headD none)
  let textField :=
    match firstField with
    | some f0 => (match textField0 with | none => some f0 | t => t)
    | none => textField0
  let valueField :=
    match firstField with
    | some _ => (match valueField0 with | none => textField | v => v)
    | none => valueField0
  match textField with
  | none => acc
  | some tf =>
    (List.range tf.values.length).foldl
      (fun acc i =>
        let text := fieldValueToString (tf.values.getD i .fnull)
        let value :=
          match valueField with
          | some vf =>
            if i < vf.values.length then fieldValueToString (vf.values.getD i .fnull) else text
          | none => text
        if text != "" then acc ++ [{ text := text, value := value }] else acc)
      acc

/-- extractOptionsFromQueryResponse models
`extractOptionsFromQueryResponse`: responses that carry an error are
skipped, nil frames are skipped, and the collected options start from a
non-nil empty slice; the function never fails. -/
def extractOptionsFromQueryResponse (res : QueryDataResponse) :
    Except String (GoSlice MetricFindValue) :=
  .ok (some (res.foldl
    (fun acc kv =>
      match kv.2.err with
      | some _ => acc
      | none =>
        kv.2.frames.foldl
          (fun acc fr =>
            match fr with
            | none => acc
            | some frame => extractFrameOptions frame acc)
          acc)
    []))

/-- PublicDashboardVariableQueryDTO models
`models.PublicDashboardVariableQueryDTO`: the request's `Variables` map of
the other variables' values (nil map as `none`; the Lean field name avoids
the reserved word) and the search filter. -/
structure PublicDashboardVariableQueryDTO where
  otherVariables : Option VarMap
  searchFilter : String

/-- variableDsUID extracts the datasource UID string of a variable
definition, as the `query` branch of `getQueryVariableOptions` does (a nil
map or a non-string entry leaves it empty). -/
def variableDsUID (vdef : VariableDefinition) : String :=
  match vdef.datasource with
  | none => ""
  | some m =>
    match AListGet m ("uid") with
    | some (.str s) => s
    | _ => ""

/-- variableQueryObj models the query-extraction switch of
`getQueryVariableOptions`: a string query becomes a one-field object and
the string itself; an object query is kept whole with its `query` string
field when that is a string; anything else leaves a nil object and an
empty string. -/
def variableQueryObj (vdef : VariableDefinition) : Option (List (String × Json)) × String :=
  match vdef.query with
  | .str q => (some [("query", .str q)], q)
  | .obj fs =>
    let queryStr :=
      match AListGet fs ("query") with
      | some (.str s) => s
      | _ => ""
    (some fs, queryStr)
  | _ => (none, "")

/-- buildVariableQueryData models the query-object construction of
`getQueryVariableOptions`: start from `refId "A"` and the variable's
datasource, interpolate the query string with the request's other variables
when both are present, copy every field of the extracted query object, and
when the query string is non-empty also set the common `query` / `expr` /
`rawQuery` / `rawSql` fields. -/
def buildVariableQueryData (vdef : VariableDefinition) (reqVars : Option VarMap) : Json :=
  let extracted := variableQueryObj vdef
  let interpolated :=
    match reqVars with
    | some vs =>
      if extracted.2 != "" then
        let q := interpolateVariables extracted.2 vs
        ((match extracted.1 with
          | some fs => some (AListSet fs ("query") (.str q))
          | none => none), q)
      else extracted
    | none => extracted
  let base : List (String × Json) :=
    [("refId", .str "A"),
     ("datasource", match vdef.datasource with | none => .null | some m => .obj m)]
  let withObj :=
    match interpolated.1 with
    | some fs => fs.foldl (fun acc kv => AListSet acc kv.1 kv.2) base
    | none => base
  let withCommon :=
    if interpolated.2 != "" then
      AListSet
        (AListSet
          (AListSet
            (AListSet withObj ("query") (.str interpolated.2))
            ("expr") (.str interpolated.2))
          ("rawQuery") (.bool true))
        ("rawSql") (.str interpolated.2)
    else withObj
  .obj withCommon

/-- buildVariableMetricRequest is the synthetic single-query request of
`getQueryVariableOptions`: a one-hour trailing window and the constructed
query object. -/
def buildVariableMetricRequest (vdef : VariableDefinition) (reqVars : Option VarMap) :
    MetricRequest :=
  { fromStr := "now-1h", toStr := "now",
    queries := [buildVariableQueryData vdef reqVars] }

/-- getQueryVariableOptions models `getQueryVariableOptions` with the
query-execution collaborator passed as a function: a variable without a
datasource UID yields a non-nil empty option list; an execution error
degrades to a non-nil empty option list with no error; a successful
execution is converted through `extractOptionsFromQueryResponse`. -/
def getQueryVariableOptions
    (queryData : MetricRequest → Except String QueryDataResponse)
    (vdef : VariableDefinition) (reqDTO : PublicDashboardVariableQueryDTO) :
    Except String (GoSlice MetricFindValue) :=
  if variableDsUID vdef == "" then .ok (some [])
  else
    match queryData (buildVariableMetricRequest vdef reqDTO.otherVariables) with
    | .error _ => .ok (some [])
    | .ok res => extractOptionsFromQueryResponse res

/-- splitN2 models `strings.SplitN(s, sep, 2)`. -/
def splitN2 (s sep : String) : List String :=
  match goSplit s sep with
  | [] => [s]
  | [x] => [x]
  | x :: rest => [x, String.intercalate sep rest]

/-- getCustomVariableOptions models `getCustomVariableOptions`: the query
string split on commas, each trimmed non-empty token either a colon-split
label and value pair or a bare token for both; a non-string query yields
the nil slice. -/
def getCustomVariableOptions (vdef : VariableDefinition) :
    Except String (GoSlice MetricFindValue) :=
  match vdef.query with
  | .str queryStr =>
    .ok ((goSplit queryStr (",")).foldl
      (fun acc tok =>
        let tok := goTrim tok
        if tok != "" then
          match splitN2 tok (":") with
          | [t, val] => acc.push { text := goTrim t, value := goTrim val }
          | _ => acc.push { text := tok, value := tok }
        else acc)
      none)
  | _ => .ok none

/-- getConstantVariableOptions models `getConstantVariableOptions`: the
current value (or the first element of an array current value) as a single
option when non-empty, preferring a non-empty string current text as the
label. -/
def getConstantVariableOptions (vdef : VariableDefinition) :
    Except String (GoSlice MetricFindValue) :=
  let value :=
    match vdef.current.value with
    | .str v => v
    | .arr vs => if vs.length > 0 then jsonGoString (vs.getD 0 .null) else ""
    | _ => ""
  if value != "" then
    let text :=
      match vdef.current.text with
      | .str t => if t != "" then t else value
      | _ => value
    .ok (GoSlice.push (none : GoSlice MetricFindValue) { text := text, value := value })
  else .ok none

/-- getStaticVariableOptions models `getStaticVariableOptions`: each
predeclared option contributes its text/value (first element of array
forms), skipping entries where both are empty and defaulting each side to
the other. -/
def getStaticVariableOptions (vdef : VariableDefinition) :
    Except String (GoSlice MetricFindValue) :=
  .ok (vdef.options.foldl
    (fun acc opt =>
      let text :=
        match opt.text with
        | .str t => t
        | .arr ts => if ts.length > 0 then jsonGoString (ts.getD 0 .null) else ""
        | _ => ""
      let value :=
        match opt.value with
        | .str v => v
        | .arr vs => if vs.length > 0 then jsonGoString (vs.getD 0 .null) else ""
        | _ => ""
      if text != "" || value != "" then
        let text := if text == "" then value else text
        let value := if value == "" then text else value
        acc.push { text := text, value := value }
      else acc)
    none)

/-- defaultIntervals is the fixed built-in interval list of
`getIntervalVariableOptions`. -/
def defaultIntervals : List String :=
  ["1m", "5m", "10m", "30m", "1h", "6h", "12h", "1d", "7d", "14d", "30d"]

/-- getIntervalVariableOptions models `getIntervalVariableOptions`: the
predeclared options when any exist, otherwise the fixed built-in list. -/
def getIntervalVariableOptions (vdef : VariableDefinition) :
    Except String (GoSlice MetricFindValue) :=
  if vdef.options.length > 0 then getStaticVariableOptions vdef
  else
    .ok (defaultIntervals.foldl
      (fun acc i => acc.push { text := i, value := i })
      none)

/-- getVariableOptions models `getVariableOptions`: dispatch on the
variable type, fall back to the current value when the computed list is
empty, and replace a nil slice by a non-nil empty one so the function
itself never returns nil on success. -/
def getVariableOptions
    (queryData : MetricRequest → Except String QueryDataResponse)
    (vdef : VariableDefinition) (reqDTO : PublicDashboardVariableQueryDTO) :
    Except String (GoSlice MetricFindValue) := do
  let options ←
    match vdef.vtype with
    | "query" => getQueryVariableOptions queryData vdef reqDTO
    | "custom" => getCustomVariableOptions vdef
    | "constant" => getConstantVariableOptions vdef
    | "interval" => getIntervalVariableOptions vdef
    | _ => getStaticVariableOptions vdef
  let options := if options.toList.length == 0 then getCurrentValueAsOption vdef else options
  let options := if options.isNil then (some [] : GoSlice MetricFindValue) else options
  .ok options

/-- containsSubstring models `strings.Contains`: the first list occurs as a
contiguous run inside the second. -/
def containsSubstring (pat : List Char) : List Char → Bool
  | [] => pat.isEmpty
  | c :: rest => pat.isPrefixOf (c :: rest) || containsSubstring pat rest

/-- filterVariableOptions models `filterVariableOptions`: keep the options
whose text or value contains the lowered filter as a substring; the
accumulator is a Go slice declared nil, so a filter matching nothing
returns the nil slice. -/
def filterVariableOptions (options : GoSlice MetricFindValue) (filter : String) :
    GoSlice MetricFindValue :=
  let f := goToLower filter
  options.toList.foldl
    (fun acc opt =>
      if containsSubstring f.data (goToLower opt.text).data ||
          containsSubstring f.data (goToLower opt.value).data
      then acc.push opt
      else acc)
    none

/-- getVariableQueryResponse models `GetVariableQueryResponse` from the
point where the dashboard document has been resolved (the access-token
lookup is an external collaborator): locate the variable, resolve its
options, and apply the search filter when one is supplied. -/
def getVariableQueryResponse
    (queryData : MetricRequest → Except String QueryDataResponse)
    (dashboard : Json) (variableName : String)
    (reqDTO : PublicDashboardVariableQueryDTO) :
    Except String (GoSlice MetricFindValue) := do
  let vdef ← findVariableInDashboard dashboard variableName
  let options ← getVariableOptions queryData vdef reqDTO
  let options :=
    if reqDTO.searchFilter != "" then filterVariableOptions options reqDTO.searchFilter
    else options
  .ok options

theorem GoSlice_foldl_drop_push {α : Type} (d : α → Bool) (f : α → Json) :
    ∀ (l : List α) (acc : GoSlice Json),
      (l.foldl (fun a x => if d x then a else a.push (f x)) acc).toList =
        acc.toList ++ (l.filter (fun x => !d x)).map f := by
  intro l
  induction l with
  | nil => intro acc; simp
  | cons x xs ih =>
    intro acc
    by_cases hx : d x = true
    · simp only [List.foldl_cons, hx, if_true, List.filter_cons, Bool.not_eq_true']
      rw [ih]
      simp [hx]
    · simp only [List.foldl_cons, hx, List.filter_cons]
      rw [if_neg (by simp [hx]), ih, GoSlice.toList_push]
      simp [hx]

/-- C3: in v1 extraction a query is dropped exactly when its own `hide`
flag is true and the panel has no expression query among its targets; the
kept queries are the targets surviving that filter, each rewritten by the
exemplar-drop / datasource-inheritance step, and when the panel has an
expression query every target (hidden or not) is kept. -/
theorem C3_hidden_query_dropped_iff (panel : Json) :
    (panelTargetQueries panel).toList =
      (((panel.get ("targets")).mustArray).filter
        (fun q => !((q.get ("hide")).mustBool && !panelHasAnExpression panel))).map
        (transformQuery panel)
    ∧ (panelHasAnExpression panel = true →
        (panelTargetQueries panel).toList =
          ((panel.get ("targets")).mustArray).map (transformQuery panel)) := by
  have base :
      (panelTargetQueries panel).toList =
        (((panel.get ("targets")).mustArray).filter
          (fun q => !(!panelHasAnExpression panel && (q.get ("hide")).mustBool))).map
          (transformQuery panel) := by
    unfold panelTargetQueries
    rw [GoSlice_foldl_drop_push
      (fun q => !panelHasAnExpression panel && (q.get ("hide")).mustBool)
      (transformQuery panel)]
    simp [GoSlice.toList]
  constructor
  · rw [base]
    congr 1
    apply List.filter_congr
    intro q _
    cases hq : (q.get ("hide")).mustBool <;> cases hp : panelHasAnExpression panel <;> simp
  · intro hp
    rw [base, hp]
    simp

/-- Witness for C3 at a concrete panel that carries an expression query and
a hidden query: both targets are kept. -/
theorem C3_hidden_query_dropped_iff_witness :
    (panelTargetQueries (.obj [("id", .num 3), ("targets", .arr [
        .obj [("refId", .str "A"), ("hide", .bool true), ("expr", .str "up")],
        .obj [("refId", .str "B"), ("datasource", .obj [("uid", .str "__expr__")])]])])).toList =
      ((((.obj [("id", .num 3), ("targets", .arr [
        .obj [("refId", .str "A"), ("hide", .bool true), ("expr", .str "up")],
        .obj [("refId", .str "B"), ("datasource", .obj [("uid", .str "__expr__")])]])]) :
          Json).get ("targets")).mustArray).map
        (transformQuery (.obj [("id", .num 3), ("targets", .arr [
        .obj [("refId", .str "A"), ("hide", .bool true), ("expr", .str "up")],
        .obj [("refId", .str "B"), ("datasource", .obj [("uid", .str "__expr__")])]])])) :=
  (C3_hidden_query_dropped_iff _).2 (by rfl)

/-- C6 counterexample: a dashboard whose only top-level panel is a
collapsed row with id 1 containing a nested panel with id 2 and one
target.  The extracted map has no entry under the row's own id 1 — the
nested panel's query is discovered only under the nested panel's own id 2 —
refuting the claim that nested queries are found under the row's own
panel-id lookup path. -/
theorem C6_row_id_lookup_cex :
    AListGet (groupQueriesByPanelId (.obj [("panels", .arr [ .obj [
        ("type", .str "row"), ("collapsed", .bool true), ("id", .num 1),
        ("panels", .arr [ .obj [("id", .num 2),
          ("targets", .arr [ .obj [("expr", .str "up")]])]])]])])) 1 = none
    ∧ AListGet (groupQueriesByPanelId (.obj [("panels", .arr [ .obj [
        ("type", .str "row"), ("collapsed", .bool true), ("id", .num 1),
        ("panels", .arr [ .obj [("id", .num 2),
          ("targets", .arr [ .obj [("expr", .str "up")]])]])]])])) 2 =
      some (some [.obj [("expr", .str "up"),
        ("datasource", .obj [("type", .str "public-ds"), ("uid", .str "")])]]) :=
  ⟨rfl, rfl⟩

/-- C6 (amended): extraction treats a collapsed row as transparent —
extracting a panel list containing the row gives the same map as extracting
the list with the row replaced by its nested panels — so nested queries are
keyed under each nested panel's own id and the row contributes no entry of
its own. -/
theorem C6_collapsed_row_transparent (row : Json) (pre post : List Json) (result : PanelMap)
    (h : isCollapsedRow row = true) :
    extractQueriesFromPanels (pre ++ row :: post) result =
      extractQueriesFromPanels (pre ++ ((row.get ("panels")).mustArray) ++ post) result := by
  rw [extractQueriesFromPanels_append pre (row :: post) result,
    extractQueriesFromPanels_cons_row post _ h, List.append_assoc,
    extractQueriesFromPanels_append pre _ result,
    extractQueriesFromPanels_append ((row.get ("panels")).mustArray) post]

/-- Witness for C6 (amended) at the concrete collapsed row of the
counterexample dashboard. -/
theorem C6_collapsed_row_transparent_witness :
    extractQueriesFromPanels ([] ++ (Json.obj [
        ("type", .str "row"), ("collapsed", .bool true), ("id", .num 1),
        ("panels", .arr [ .obj [("id", .num 2),
          ("targets", .arr [ .obj [("expr", .str "up")]])]])]) :: []) [] =
      extractQueriesFromPanels ([] ++ (((Json.obj [
        ("type", .str "row"), ("collapsed", .bool true), ("id", .num 1),
        ("panels", .arr [ .obj [("id", .num 2),
          ("targets", .arr [ .obj [("expr", .str "up")]])]])]).get ("panels")).mustArray) ++ []) [] :=
  C6_collapsed_row_transparent _ [] [] [] (by rfl)

/-- C8: every query in the map built by the v1 extractor and every query in
the map built by the v2 extractor has no `exemplar` field, and the field is
still absent after the builder attaches `intervalMs` / `maxDataPoints` /
`queryCachingTTL`, for every input dashboard. -/
theorem C8_exemplar_absent (dashboard : Json) (k : Int) (qs : GoSlice Json) :
    (AListGet (groupQueriesByPanelId dashboard) k = some qs →
      ∀ q ∈ qs.toList, q.hasKey ("exemplar") = false ∧
        ∀ si sr ttl : Int, (attachQueryParams si sr ttl q).hasKey ("exemplar") = false)
    ∧ (AListGet (groupQueriesByPanelIdV2 dashboard) k = some qs →
      ∀ q ∈ qs.toList, q.hasKey ("exemplar") = false ∧
        ∀ si sr ttl : Int, (attachQueryParams si sr ttl q).hasKey ("exemplar") = false) := by
  constructor
  · intro h q hq
    have hfree : exemplarFree q :=
      groupQueriesByPanelId_values (fun v => ∀ r ∈ v.toList, exemplarFree r)
        panelTargetQueries_exemplarFree dashboard k qs h q hq
    exact ⟨hfree, fun si sr ttl => attachQueryParams_exemplarFree si sr ttl q hfree⟩
  · intro h q hq
    have hfree : exemplarFree q :=
      groupQueriesByPanelIdV2_values (fun v => ∀ r ∈ v.toList, exemplarFree r)
        elementQueriesV2_exemplarFree dashboard k qs h q hq
    exact ⟨hfree, fun si sr ttl => attachQueryParams_exemplarFree si sr ttl q hfree⟩

/-- Witness for C8 at a concrete dashboard whose only query carries an
`exemplar` field on input: the extracted query has none. -/
theorem C8_exemplar_absent_witness :
    (Json.obj [("expr", .str "up"),
        ("datasource", .obj [("type", .str "public-ds"), ("uid", .str "")])]).hasKey
      ("exemplar") = false ∧
    ∀ si sr ttl : Int,
      (attachQueryParams si sr ttl (Json.obj [("expr", .str "up"),
        ("datasource", .obj [("type", .str "public-ds"), ("uid", .str "")])])).hasKey
        ("exemplar") = false :=
  (C8_exemplar_absent
      (.obj [("panels", .arr [ .obj [("id", .num 5),
        ("targets", .arr [ .obj [("expr", .str "up"), ("exemplar", .bool true)]])]])])
      5
      (some [.obj [("expr", .str "up"),
        ("datasource", .obj [("type", .str "public-ds"), ("uid", .str "")])]])).1
    (by rfl)
    (.obj [("expr", .str "up"),
      ("datasource", .obj [("type", .str "public-ds"), ("uid", .str "")])])
    (by simp [GoSlice.toList])

/-- C5 counterexample: with the map iterated as a then b, substituting a's
value (whose template expansion is the literal braced placeholder of b,
via the double-dollar escape) injects that placeholder into the text, and
it is itself replaced when b is processed — the call returns the fully
re-substituted string instead of leaving the injected placeholder literal.
The middle conjunct exhibits the intermediate state: a's substitution alone
leaves the literal placeholder of b in the text. -/
theorem C5_resubstitution_cex :
    interpolateVariables ("$\x7ba\x7d") [("a", .vstr "$$\x7bb\x7d"), ("b", .vstr "X")] = "X"
    ∧ interpolateOne ("$\x7ba\x7d") "a" "$$\x7bb\x7d" = "$\x7bb\x7d"
    ∧ ("X" : String) ≠ "$\x7bb\x7d" :=
  ⟨by decide, by decide, by decide⟩

/-- C5 (amended): each variable entry is processed exactly once, in
iteration order — interpolating an appended order equals interpolating the
first segment and then the second; a variable's value is expanded as a Go
replacement template and the expanded value is inserted without being
re-scanned for that same variable (second conjunct: the expansion of the
double-dollar value reproduces the variable's own placeholder, which stays
literal) — but a later variable's substitution scans the whole accumulated
text, so a placeholder contained in an earlier variable's expanded,
substituted value is replaced when its variable comes later in the
iteration order (third conjunct). -/
theorem C5_single_pass_per_variable :
    (∀ (text : String) (v1 v2 : VarMap),
      interpolateVariables text (v1 ++ v2) =
        interpolateVariables (interpolateVariables text v1) v2)
    ∧ interpolateVariables ("$\x7ba\x7d") [("a", .vstr "$$\x7ba\x7dX")] = "$\x7ba\x7dX"
    ∧ interpolateVariables ("$\x7bc\x7d") [("c", .vstr "$$\x7bd\x7d"), ("d", .vstr "Y")] = "Y" :=
  ⟨fun text v1 v2 => by simp [interpolateVariables, List.foldl_append],
   by decide, by decide⟩

/-- C10 counterexample: the same two-entry variable map iterated in its two
possible orders yields two different outputs for the same text — e's value
expands to the literal placeholder of f, which is substituted only when f
is processed after e — so the result is not independent of the iteration
order (which Go leaves unspecified for maps). -/
theorem C10_order_dependent_cex :
    ([("e", VarValue.vstr "$$\x7bf\x7d"), ("f", VarValue.vstr "Z")] :
        VarMap).Perm [("f", VarValue.vstr "Z"), ("e", VarValue.vstr "$$\x7bf\x7d")]
    ∧ interpolateVariables ("$\x7be\x7d") [("e", .vstr "$$\x7bf\x7d"), ("f", .vstr "Z")] ≠
        interpolateVariables ("$\x7be\x7d") [("f", .vstr "Z"), ("e", .vstr "$$\x7bf\x7d")] :=
  ⟨List.Perm.swap _ _ _, by decide⟩

/-- C10 (amended): interpolation is deterministic only relative to a fixed
iteration order — it is a pure function of the text and the ordered entry
sequence — and there exist permutation-equivalent variable sequences whose
outputs differ, because a later variable's substitution re-scans the
template-expanded values substituted for earlier variables. -/
theorem C10_exists_order_dependence :
    ∃ (t : String) (v1 v2 : VarMap),
      v1.Perm v2 ∧ interpolateVariables t v1 ≠ interpolateVariables t v2 :=
  ⟨("$\x7bg\x7d"), [("g", .vstr "$$\x7bh\x7d"), ("h", .vstr "W")],
    [("h", .vstr "W"), ("g", .vstr "$$\x7bh\x7d")],
    List.Perm.swap _ _ _, by decide⟩

/-- C7 counterexample: a multi-value sequence whose first element contains
a dollar sign renders (joins) as one string, but interpolation does not
substitute that literal joined string — the replacement is expanded as a Go
template, and the dollar reference (a group these patterns do not declare)
becomes the empty string. -/
theorem C7_dollar_value_cex :
    variableValueToString (.varr [.vstr "$x", .vstr "b"]) = "$x,b"
    ∧ interpolateVariables ("$\x7bm\x7d") [("m", .varr [.vstr "$x", .vstr "b"])] = ",b"
    ∧ (",b" : String) ≠ "$x,b" :=
  ⟨by decide, by decide, by decide⟩

/-- C7 (amended): a multi-value sequence of strings renders as the elements
joined by a comma and scalar values render via their default string form
(strings as themselves, integers and booleans via their standard
rendering); substituting one non-nil variable inserts that rendered string
only after expanding it as a Go replacement template against the
placeholder pattern — an expansion that is the identity exactly when the
rendered string is free of dollar signs (sixth conjunct), so a
dollar-free sequence such as a/b/c still substitutes to the literal
a,b,c end to end (seventh conjunct), while dollar sequences in a rendered
value are rewritten by the expansion. -/
theorem C7_multivalue_join_and_scalars :
    (∀ ss : List String,
      variableValueToString (.varr (ss.map .vstr)) = String.intercalate ("," ) ss)
    ∧ (∀ s : String, variableValueToString (.vstr s) = s)
    ∧ (∀ n : Int, variableValueToString (.vnum n) = toString n)
    ∧ (∀ b : Bool, variableValueToString (.vbool b) = if b then "true" else "false")
    ∧ (∀ (text name : String) (v : VarValue), v ≠ .vnull →
        interpolateVariables text [(name, v)] =
          interpolateOne text name (variableValueToString v))
    ∧ (∀ (matched template : List Char), '$' ∉ template →
        expandTemplate matched template = template)
    ∧ interpolateVariables ("$\x7bm\x7d")
        [("m", .varr [.vstr "a", .vstr "b", .vstr "c"])] = "a,b,c" := by
  refine ⟨?_, fun s => rfl, fun n => rfl, fun b => rfl, ?_, expandTemplate_no_dollar, by decide⟩
  · intro ss
    have hvals : (ss.map VarValue.vstr).filterMap
        (fun x => match x with | .vstr s => some s | _ => none) = ss := by
      induction ss with
      | nil => rfl
      | cons a l ih => simp [List.filterMap_cons, ih]
    simp only [variableValueToString, hvals]
    cases ss with
    | nil => rfl
    | cons a l => simp
  · intro text name v hv
    cases v with
    | vnull => exact absurd rfl hv
    | vstr s => rfl
    | vnum n => rfl
    | vbool b => rfl
    | varr l => rfl

/-- Witness for C7 at a concrete non-nil variable: the substitution uses
the rendered string form (template-expanded). -/
theorem C7_multivalue_join_and_scalars_witness :
    interpolateVariables ("up") [("sv", VarValue.vstr "x")] =
      interpolateOne ("up") "sv" (variableValueToString (VarValue.vstr "x")) :=
  C7_multivalue_join_and_scalars.2.2.2.2.1 ("up") "sv" (VarValue.vstr "x")
    (fun h => VarValue.noConfusion h)

/-- C9: whenever the query-execution collaborator returns an error for the
request that `getQueryVariableOptions` builds for a query-type variable
with a datasource, the function returns a non-nil empty option list and no
error — the failure is never propagated. -/
theorem C9_query_exec_failure_degrades
    (queryData : MetricRequest → Except String QueryDataResponse)
    (vdef : VariableDefinition) (reqDTO : PublicDashboardVariableQueryDTO) (e : String)
    (hds : variableDsUID vdef ≠ "")
    (hexec : queryData (buildVariableMetricRequest vdef reqDTO.otherVariables) = .error e) :
    getQueryVariableOptions queryData vdef reqDTO = .ok (some []) := by
  unfold getQueryVariableOptions
  rw [if_neg (by simpa using hds), hexec]

/-- Witness for C9 at a concrete query variable and an always-failing
collaborator. -/
theorem C9_query_exec_failure_degrades_witness :
    getQueryVariableOptions (fun _ => .error "boom")
      { name := "q", vtype := "query", query := .str "label_values(up)",
        datasource := some [("uid", .str "ds1"), ("type", .str "prometheus")],
        options := [], current := { text := .null, value := .null },
        multi := false, refresh := 0, regex := "", sort := 0 }
      { otherVariables := none, searchFilter := "" } = .ok (some []) :=
  C9_query_exec_failure_degrades (fun _ => .error "boom")
    { name := "q", vtype := "query", query := .str "label_values(up)",
      datasource := some [("uid", .str "ds1"), ("type", .str "prometheus")],
      options := [], current := { text := .null, value := .null },
      multi := false, refresh := 0, regex := "", sort := 0 }
    { otherVariables := none, searchFilter := "" } "boom" (by decide) rfl

/-- C2: at the failing input — a custom variable resolving to two options
with a search filter matching neither — the pipeline returns the nil slice
(which marshals to JSON null) with no error, although the same call without
the filter returns a non-nil list: `filterVariableOptions` reintroduces the
nil slice that `getVariableOptions` had just ruled out. -/
theorem C2_filter_returns_nil_slice :
    getVariableQueryResponse (fun _ => .error "unused")
      (.obj [("templating", .obj [("list", .arr [
        .obj [("name", .str "v"), ("type", .str "custom"), ("query", .str "a,b")]])])])
      "v" { otherVariables := none, searchFilter := "zzz" } = .ok none
    ∧ getVariableQueryResponse (fun _ => .error "unused")
      (.obj [("templating", .obj [("list", .arr [
        .obj [("name", .str "v"), ("type", .str "custom"), ("query", .str "a,b")]])])])
      "v" { otherVariables := none, searchFilter := "" } =
        .ok (some [{ text := "a", value := "a" }, { text := "b", value := "b" }]) :=
  ⟨rfl, rfl⟩

/-- C1: applying template variables never mutates the caller's dashboard —
the returned instance points at a freshly allocated document (a different
reference than the caller's), the heap cell holding the caller's document
is unchanged by the call, and the original document's serialized form is
byte-identical before and after. -/
theorem C1_applyTemplateVariables_preserves_original
    (heap : Heap) (dash : Dashboard) (vars : VarMap) (h : dash.dataRef < heap.length) :
    (applyTemplateVariables heap dash vars).2.dataRef ≠ dash.dataRef
    ∧ ((applyTemplateVariables heap dash vars).1)[dash.dataRef]? = heap[dash.dataRef]?
    ∧ (heapRead (applyTemplateVariables heap dash vars).1 dash.dataRef).serialize =
        (heapRead heap dash.dataRef).serialize := by
  have hcell :
      ((applyTemplateVariables heap dash vars).1)[dash.dataRef]? = heap[dash.dataRef]? := by
    show (((heap ++ [heapRead heap dash.dataRef]).set heap.length
        (interpolateVariablesInDashboard vars (heapRead heap dash.dataRef))))[dash.dataRef]? =
      heap[dash.dataRef]?
    rw [List.getElem?_set_ne (by omega), List.getElem?_append_left h]
  refine ⟨?_, hcell, ?_⟩
  · show heap.length ≠ dash.dataRef
    omega
  · show (heapRead (applyTemplateVariables heap dash vars).1 dash.dataRef).serialize =
      (heapRead heap dash.dataRef).serialize
    unfold heapRead
    rw [List.getD_eq_getElem?_getD, List.getD_eq_getElem?_getD, hcell]

/-- Witness for C1 at a concrete one-document heap. -/
theorem C1_applyTemplateVariables_preserves_original_witness :
    (applyTemplateVariables [.obj [("title", .str "$\x7ba\x7d")]]
        { id := 1, uid := "u", title := "t", dataRef := 0, orgId := 1,
          created := 0, updated := 0 } [("a", .vstr "b")]).2.dataRef ≠ 0
    ∧ ((applyTemplateVariables [.obj [("title", .str "$\x7ba\x7d")]]
        { id := 1, uid := "u", title := "t", dataRef := 0, orgId := 1,
          created := 0, updated := 0 } [("a", .vstr "b")]).1)[(0:Nat)]? =
      ([(.obj [("title", .str "$\x7ba\x7d")] : Json)])[(0:Nat)]?
    ∧ (heapRead (applyTemplateVariables [.obj [("title", .str "$\x7ba\x7d")]]
        { id := 1, uid := "u", title := "t", dataRef := 0, orgId := 1,
          created := 0, updated := 0 } [("a", .vstr "b")]).1 0).serialize =
      (heapRead [.obj [("title", .str "$\x7ba\x7d")]] 0).serialize :=
  C1_applyTemplateVariables_preserves_original
    [.obj [("title", .str "$\x7ba\x7d")]]
    { id := 1, uid := "u", title := "t", dataRef := 0, orgId := 1,
      created := 0, updated := 0 } [("a", .vstr "b")] (by decide)

theorem getTimeRangeValuesOrDefault_eq (reqDTO : PublicDashboardQueryDTO) (d : Json)
    (enabled : Bool) (panelID : Int) :
    getTimeRangeValuesOrDefault reqDTO d enabled panelID =
      ((if enabled && (reqDTO.timeRange.fromStr != "" && reqDTO.timeRange.toStr != "")
        then reqDTO.timeRange.fromStr
        else if getPanelRelativeTimeRange d panelID != "" then getPanelRelativeTimeRange d panelID
             else ((d.getPath [("time"), ("from")]).mustString)),
       (if enabled && (reqDTO.timeRange.fromStr != "" && reqDTO.timeRange.toStr != "")
        then reqDTO.timeRange.toStr
        else ((d.getPath [("time"), ("to")]).mustString)),
       (if enabled && (reqDTO.timeRange.timezone != "") then
          match loadLocation reqDTO.timeRange.timezone with
          | some u => u
          | none =>
            match loadLocation ((d.getPath [("timezone")]).mustString) with
            | some tz => tz
            | none => "UTC"
        else
          match loadLocation ((d.getPath [("timezone")]).mustString) with
          | some tz => tz
          | none => "UTC")) := by
  unfold getTimeRangeValuesOrDefault
  cases h1 : (enabled && (reqDTO.timeRange.fromStr != "" && reqDTO.timeRange.toStr != "")) <;>
  cases h2 : (enabled && (reqDTO.timeRange.timezone != "")) <;>
  cases h3 : loadLocation reqDTO.timeRange.timezone <;>
  cases h4 : loadLocation ((d.getPath [("timezone")]).mustString) <;>
  simp [h1, h2, h3, h4]

/-- C4: time-window precedence — a panel's relative `timeFrom` override
replaces the document-level `from` whenever the request does not override
it; when time selection is enabled and the request supplies both `from` and
`to`, the request values win over both the document defaults and the panel
override; and when time selection is disabled the caller-supplied time
range (and timezone) is ignored entirely: the result is the same for every
request, i.e. the document's own time settings apply. -/
theorem C4_time_precedence (reqDTO : PublicDashboardQueryDTO) (d : Json)
    (enabled : Bool) (panelID : Int) :
    (getPanelRelativeTimeRange d panelID ≠ "" →
      ¬(enabled = true ∧ reqDTO.timeRange.fromStr ≠ "" ∧ reqDTO.timeRange.toStr ≠ "") →
      (getTimeRangeValuesOrDefault reqDTO d enabled panelID).1 =
        getPanelRelativeTimeRange d panelID)
    ∧ (enabled = true → reqDTO.timeRange.fromStr ≠ "" → reqDTO.timeRange.toStr ≠ "" →
      (getTimeRangeValuesOrDefault reqDTO d enabled panelID).1 = reqDTO.timeRange.fromStr
      ∧ (getTimeRangeValuesOrDefault reqDTO d enabled panelID).2.1 = reqDTO.timeRange.toStr)
    ∧ (enabled = false → ∀ reqDTO' : PublicDashboardQueryDTO,
        getTimeRangeValuesOrDefault reqDTO' d enabled panelID =
          getTimeRangeValuesOrDefault reqDTO d enabled panelID) := by
  refine ⟨?_, ?_, ?_⟩
  · intro hpr hno
    have hcond : (enabled && (reqDTO.timeRange.fromStr != "" && reqDTO.timeRange.toStr != "")) = false := by
      by_cases henb : enabled = true
      · by_cases hf : reqDTO.timeRange.fromStr = ""
        · simp [hf]
        · by_cases ht : reqDTO.timeRange.toStr = ""
          · simp [ht]
          · exact absurd ⟨henb, hf, ht⟩ hno
      · rw [Bool.not_eq_true] at henb
        simp [henb]
    rw [getTimeRangeValuesOrDefault_eq]
    simp [hcond, hpr]
  · intro he hf ht
    have hcond : (enabled && (reqDTO.timeRange.fromStr != "" && reqDTO.timeRange.toStr != "")) = true := by
      simp [he, hf, ht]
    rw [getTimeRangeValuesOrDefault_eq]
    simp [hcond]
  · intro he reqDTO'
    rw [getTimeRangeValuesOrDefault_eq reqDTO', getTimeRangeValuesOrDefault_eq reqDTO]
    simp [he]

/-- Witness for C4 at concrete inputs: with time selection disabled, a
complete valid request time range is ignored — the result equals the one
for an empty request — and with it enabled the same request wins. -/
theorem C4_time_precedence_witness :
    (getTimeRangeValuesOrDefault
        { timeRange := { fromStr := "now-2h", toStr := "now-1h", timezone := "UTC" },
          queryCachingTTL := 0 }
        (.obj [("time", .obj [("from", .str "now-6h"), ("to", .str "now")])])
        false 1).1 = "now-6h"
    ∧ getTimeRangeValuesOrDefault
        { timeRange := { fromStr := "", toStr := "", timezone := "" }, queryCachingTTL := 0 }
        (.obj [("time", .obj [("from", .str "now-6h"), ("to", .str "now")])])
        false 1 =
      getTimeRangeValuesOrDefault
        { timeRange := { fromStr := "now-2h", toStr := "now-1h", timezone := "UTC" },
          queryCachingTTL := 0 }
        (.obj [("time", .obj [("from", .str "now-6h"), ("to", .str "now")])])
        false 1
    ∧ (getTimeRangeValuesOrDefault
        { timeRange := { fromStr := "now-2h", toStr := "now-1h", timezone := "UTC" },
          queryCachingTTL := 0 }
        (.obj [("time", .obj [("from", .str "now-6h"), ("to", .str "now")])])
        true 1).1 = "now-2h" := by
  refine ⟨?_, ?_, ?_⟩
  · exact (by decide : (getTimeRangeValuesOrDefault
        { timeRange := { fromStr := "now-2h", toStr := "now-1h", timezone := "UTC" },
          queryCachingTTL := 0 }
        (.obj [("time", .obj [("from", .str "now-6h"), ("to", .str "now")])])
        false 1).1 = "now-6h")
  · exact (C4_time_precedence
      { timeRange := { fromStr := "now-2h", toStr := "now-1h", timezone := "UTC" },
        queryCachingTTL := 0 }
      (.obj [("time", .obj [("from", .str "now-6h"), ("to", .str "now")])])
      false 1).2.2 rfl
      { timeRange := { fromStr := "", toStr := "", timezone := "" }, queryCachingTTL := 0 }
  · exact ((C4_time_precedence
      { timeRange := { fromStr := "now-2h", toStr := "now-1h", timezone := "UTC" },
        queryCachingTTL := 0 }
      (.obj [("time", .obj [("from", .str "now-6h"), ("to", .str "now")])])
      true 1).2.1 rfl (by decide) (by decide)).1
